import Mathlib

/-!
Shallow embedding of the ws-benchmark WebSocket load-generator
(`src/main.rs`) together with theorems settling the frozen claims.

Modelled aspects:
* JSON values as an inductive type; `sonic_rs` accessors `get`, `as_u64`,
  `as_str` as Lean functions.  JSON numbers are modelled as the
  u64-representable ones (the only kind the timestamp-extraction code can
  accept; on any other number `as_u64` returns `None` just as a missing
  field does, which the model expresses with absence / non-`num` values).
* The token pool (`TokenPool`), the filter builder (`build_filter`) and the
  synthetic-pool generator (`generate_fake`).  Randomness is made explicit:
  `choose` becomes an arbitrary index, `shuffle` becomes an arbitrary
  permutation of the index list; a theorem quantified over these parameters
  covers every outcome of the RNG.
* The per-connection message loop of `run_client` as a step function
  `clientStep` over an explicit client state and a metrics record, driven by
  a list of events (inbound frames, timer ticks, shutdown, transport
  errors).  Histograms are modelled as the list of accepted samples; the
  `hdrhistogram` bound check of `record(..).ok()` (bounds `[1, 60000]`,
  values above the high bound are silently dropped) is `recordHist`.
  Monotonic (`Instant`) and wall-clock (`SystemTime`) readings are carried
  on each event in milliseconds.
* Shared atomic counters are modelled as per-client deltas summed over
  clients (`Metrics.add`, `runAll`): relaxed atomic `fetch_add`s commute, so
  final totals are the sums of per-client contributions.
-/

/-- JSON value, as far as the client inspects one. -/
inductive Json where
  | null : Json
  | bool (b : Bool) : Json
  | num (n : Nat) : Json
  | str (s : String) : Json
  | arr (xs : List Json) : Json
  | obj (fields : List (String × Json)) : Json

/-- `sonic_rs::Value::get(key)`: field lookup on an object, `None` on any
other value kind (and on a missing key). -/
def Json.get : Json → String → Option Json
  | .obj fields, key => (fields.find? (fun f => f.1 = key)).map (·.2)
  | _, _ => none

/-- `sonic_rs` `as_u64`: the number when the value is an unsigned integer. -/
def Json.as_u64 : Json → Option Nat
  | .num n => some n
  | _ => none

/-- `sonic_rs` `as_str`. -/
def Json.as_str : Json → Option String
  | .str s => some s
  | _ => none

/-- Rust `str::parse::<u64>()`: an optional leading `+`, then a nonempty
run of ASCII digits, value below `2^64`. -/
def parseU64 (s : String) : Option Nat :=
  let s' := if s.startsWith "+" then s.drop 1 else s
  match s'.toNat? with
  | some n => if n < 2 ^ 64 then some n else none
  | none => none

/-- One candidate timestamp value:
`ts.as_u64().or_else(|| ts.as_str().and_then(|s| s.parse::<u64>().ok()))`. -/
def tsFromValue (ts : Json) : Option Nat :=
  match ts.as_u64 with
  | some n => some n
  | none => ts.as_str.bind parseU64

/-- Inbound frame after `serde` parsing: `{event, channel?, data?, tags?}`. -/
structure PusherMessage where
  event : String
  channel : Option String
  data : Option Json
  tags : Option Json

/-- Timestamp extraction exactly as in `run_client` (main.rs:510-544):
first the root-level `tags.timestamp`; if that produced no value, then
inside `data`: `if let Some(tags) = data.get("tags")` consult only
`tags.timestamp`, `else if let Some(ts) = data.get("timestamp")` consult
`data.timestamp`. -/
def extractTimestamp (msg : PusherMessage) : Option Nat :=
  let fromRoot : Option Nat :=
    match msg.tags with
    | some tags =>
      match tags.get "timestamp" with
      | some ts => tsFromValue ts
      | none => none
    | none => none
  match fromRoot with
  | some v => some v
  | none =>
    match msg.data with
    | some data =>
      match data.get "tags" with
      | some tags =>
        match tags.get "timestamp" with
        | some ts => tsFromValue ts
        | none => none
      | none =>
        match data.get "timestamp" with
        | some ts => tsFromValue ts
        | none => none
    | none => none

/-- The claim's reading of the search order: three locations
(`tags.timestamp`, `data.tags.timestamp`, `data.timestamp`) consulted in
sequence, the next one consulted whenever the previous yielded no value. -/
def extractTimestampClaim (msg : PusherMessage) : Option Nat :=
  let loc1 := (msg.tags.bind (·.get "timestamp")).bind tsFromValue
  let loc2 := ((msg.data.bind (·.get "tags")).bind (·.get "timestamp")).bind tsFromValue
  let loc3 := (msg.data.bind (·.get "timestamp")).bind tsFromValue
  (loc1.or loc2).or loc3

/-- The amended search order: `data.timestamp` is consulted only when the
root location yielded no value and `data` has no `tags` field at all; a
present `data.tags` that yields no timestamp value ends the search. -/
def extractTimestampAmended (msg : PusherMessage) : Option Nat :=
  let loc1 := (msg.tags.bind (·.get "timestamp")).bind tsFromValue
  let fallback :=
    if (msg.data.bind (·.get "tags")).isSome then
      ((msg.data.bind (·.get "tags")).bind (·.get "timestamp")).bind tsFromValue
    else
      (msg.data.bind (·.get "timestamp")).bind tsFromValue
  loc1.or fallback

/-- `TokenPool::get_random`: `self.addresses[..].choose(&mut rng)` picks a
uniformly random valid index.  The index is an explicit parameter; reduction
mod the length expresses that the RNG only produces valid indices (the Rust
code `unwrap`s, assuming a non-empty pool). -/
def get_random (pool : List String) (idx : Nat) : String :=
  pool.getD (idx % pool.length) ""

/-- `TokenPool::get_random_unique`: build the full index list `0..len`,
shuffle it (the shuffle outcome `perm` is an explicit parameter; theorems
assume it is a permutation of `List.range pool.length`), take
`min len count` indices and map them to addresses. -/
def get_random_unique (pool : List String) (perm : List Nat) (count : Nat) :
    List String :=
  let max_count := min pool.length count
  (perm.take max_count).map (fun i => pool.getD i "")

/-- `format!("0x{:040x}", i)`: the literal `0x` followed by the lowercase
hexadecimal digits of `i`, zero-padded on the left to width 40. -/
def format_0x40 (i : Nat) : String :=
  let ds := Nat.toDigits 16 i
  "0x" ++ String.mk (List.replicate (40 - ds.length) '0') ++ String.mk ds

/-- `TokenPool::generate_fake(count)`. -/
def generate_fake (count : Nat) : List String :=
  (List.range count).map format_0x40

/-- The claim's synthetic entry format: `token_<8-hex-index>`. -/
def token_name_claim (i : Nat) : String :=
  let ds := Nat.toDigits 16 i
  "token_" ++ String.mk (List.replicate (8 - ds.length) '0') ++ String.mk ds

/-- Token loading in `main` (main.rs:788-792): when the token file exists
its parse result decides success; when it is absent, a synthetic pool of
10000 entries is used and startup cannot fail at this step. -/
def tokensOnStartup (fileExists : Bool) (parsed : Option (List String)) :
    Option (List String) :=
  if fileExists then parsed else some (generate_fake 10000)

/-- The serialized filter document variants. -/
inductive FilterValue where
  | single (key cmp val : String) : FilterValue
  | multiple (key cmp : String) (vals : List String) : FilterValue
deriving DecidableEq

/-- One RNG outcome consumed by `build_filter`: an index for `choose` and a
shuffled index list for `shuffle`. -/
structure Rng where
  idx : Nat
  perm : List Nat

/-- `build_filter(scenario, tokens)` (main.rs:287-320). -/
def build_filter (scenario : Nat) (pool : List String) (r : Rng) : FilterValue :=
  match scenario with
  | 1 => .single "token_address" "eq" (get_random pool r.idx)
  | 2 => .single "token_address" "eq" (get_random pool r.idx)
  | 3 => .multiple "token_address" "in" (get_random_unique pool r.perm 10)
  | 4 => .multiple "token_address" "in" (get_random_unique pool r.perm 100)
  | 5 => .multiple "token_address" "in" (get_random_unique pool r.perm 500)
  | _ => .single "token_address" "eq" (get_random pool r.idx)

/-- The configuration fields consulted by the message loop. -/
structure Config where
  channel : String
  scenario : Nat

/-- Local mutable state of `run_client`'s loop (main.rs:356-359). -/
structure ClientState where
  subscribe_time : Option Nat
  update_time : Option Nat
  subscribed : Bool
  is_updating : Bool
deriving DecidableEq

def ClientState.init : ClientState :=
  { subscribe_time := none, update_time := none,
    subscribed := false, is_updating := false }

/-- The shared metric cells, as one client's contribution: histograms are
the lists of accepted samples, counters are naturals. -/
structure Metrics where
  subscribe_latency : List Nat
  filter_update_latency : List Nat
  e2e_latency : List Nat
  messages_received : Nat
  subscribe_success : Nat
  subscribe_failed : Nat
  filter_updates : Nat
  connection_errors : Nat
deriving DecidableEq

def Metrics.init : Metrics :=
  { subscribe_latency := [], filter_update_latency := [], e2e_latency := [],
    messages_received := 0, subscribe_success := 0, subscribe_failed := 0,
    filter_updates := 0, connection_errors := 0 }

/-- `Histogram::record(v).ok()` on a histogram with bounds `[1, 60000]`:
values above the high bound yield an error that `.ok()` discards; all other
values are stored. -/
def recordHist (h : List Nat) (v : Nat) : List Nat :=
  if v ≤ 60000 then h ++ [v] else h

/-- The end-to-end latency computation and range check (main.rs:552-562):
`now.saturating_sub(ts)` (truncated `Nat` subtraction embeds u64
`saturating_sub`), recorded only when strictly below 60000 ms. -/
def e2eRecord (ts now : Nat) : Option Nat :=
  let latency := now - ts
  if latency < 60000 then some latency else none

/-- Frames the client writes to the socket. -/
inductive Outbound where
  | rawPong : Outbound
  | pusherPong : Outbound
  | subscribe (f : FilterValue) : Outbound
deriving DecidableEq

/-- One iteration's input to the `tokio::select!` loop.  Frames carry the
monotonic (`Instant`) and wall (`SystemTime`) clock readings in ms at
processing time, the RNG outcome any filter build would consume, and
whether a send the iteration attempts succeeds. -/
inductive ClientEvent where
  | shutdown : ClientEvent
  | tick (now : Nat) (r : Rng) (sendOk : Bool) : ClientEvent
  | rawPing (sendOk : Bool) : ClientEvent
  | parseFail : ClientEvent
  | frame (msg : PusherMessage) (mono wall : Nat) (r : Rng) (sendOk : Bool) :
      ClientEvent
  | closeFrame : ClientEvent
  | wsError : ClientEvent
  | streamEnd : ClientEvent
  | binaryFrame : ClientEvent

/-- Result of one loop iteration: updated state and metrics, whether the
loop continues (`false` embeds `break`), and the frames actually sent. -/
structure StepResult where
  st : ClientState
  m : Metrics
  cont : Bool
  sent : List Outbound
deriving DecidableEq

/-- One iteration of `run_client`'s `tokio::select!` loop
(main.rs:370-594), with the select arms and the inner `match` on the parsed
event translated branch by branch. -/
def clientStep (cfg : Config) (pool : List String) (st : ClientState)
    (m : Metrics) : ClientEvent → StepResult
  | .shutdown => ⟨st, m, false, []⟩
  | .tick now r sendOk =>
    if st.subscribed then
      let f := build_filter cfg.scenario pool r
      let st' := { st with update_time := some now, is_updating := true }
      if sendOk then ⟨st', m, true, [.subscribe f]⟩ else ⟨st', m, false, []⟩
    else ⟨st, m, true, []⟩
  | .rawPing sendOk =>
    if sendOk then ⟨st, m, true, [.rawPong]⟩ else ⟨st, m, false, []⟩
  | .parseFail => ⟨st, m, true, []⟩
  | .frame msg mono wall r sendOk =>
    if msg.event = "pusher:ping" then
      if sendOk then ⟨st, m, true, [.pusherPong]⟩ else ⟨st, m, false, []⟩
    else if msg.event = "pusher:connection_established" then
      let f := build_filter cfg.scenario pool r
      let st' := { st with subscribe_time := some mono }
      if sendOk then ⟨st', m, true, [.subscribe f]⟩ else ⟨st', m, false, []⟩
    else if msg.event = "pusher_internal:subscription_succeeded" then
      if st.is_updating then
        match st.update_time with
        | some start =>
          ⟨{ st with is_updating := false },
           { m with
              filter_update_latency :=
                recordHist m.filter_update_latency (mono - start),
              filter_updates := m.filter_updates + 1 }, true, []⟩
        | none => ⟨{ st with is_updating := false }, m, true, []⟩
      else
        match st.subscribe_time with
        | some start =>
          ⟨{ st with subscribed := true },
           { m with
              subscribe_latency :=
                recordHist m.subscribe_latency (mono - start),
              subscribe_success := m.subscribe_success + 1 }, true, []⟩
        | none => ⟨st, m, true, []⟩
    else if msg.event = "pusher:error" then
      ⟨st, { m with subscribe_failed := m.subscribe_failed + 1 }, true, []⟩
    else
      if st.subscribed ∧ msg.channel = some cfg.channel then
        let m1 := { m with messages_received := m.messages_received + 1 }
        match extractTimestamp msg with
        | some ts =>
          match e2eRecord ts wall with
          | some latency =>
            ⟨st, { m1 with e2e_latency := m1.e2e_latency ++ [latency] },
             true, []⟩
          | none => ⟨st, m1, true, []⟩
        | none => ⟨st, m1, true, []⟩
      else ⟨st, m, true, []⟩
  | .closeFrame => ⟨st, m, false, []⟩
  | .wsError =>
    ⟨st, { m with connection_errors := m.connection_errors + 1 }, false, []⟩
  | .streamEnd => ⟨st, m, false, []⟩
  | .binaryFrame => ⟨st, m, true, []⟩

/-- The message loop: iterate `clientStep` until a `break` or the end of
the event stream. -/
def runLoop (cfg : Config) (pool : List String) :
    ClientState → Metrics → List ClientEvent → Metrics
  | _, m, [] => m
  | st, m, ev :: rest =>
    let r := clientStep cfg pool st m ev
    if r.cont then runLoop cfg pool r.st r.m rest else r.m

/-- Outcome of one client task: its metric contribution and how many times
it incremented / decremented `active_connections`. -/
structure RunOutcome where
  m : Metrics
  active_inc : Nat
  active_dec : Nat
deriving DecidableEq

/-- `run_client` (main.rs:326-600): a failed connect increments
`connection_errors` and returns before the `active_connections` increment;
on success the increment precedes the loop and the decrement follows every
loop exit. -/
def run_client (cfg : Config) (pool : List String) (connectOk : Bool)
    (events : List ClientEvent) : RunOutcome :=
  if connectOk then
    let m := runLoop cfg pool ClientState.init Metrics.init events
    ⟨m, 1, 1⟩
  else
    ⟨{ Metrics.init with connection_errors := 1 }, 0, 0⟩

/-- Pointwise merge of two metric contributions (relaxed atomic adds
commute, so the final totals are sums of per-client deltas). -/
def Metrics.add (a b : Metrics) : Metrics :=
  { subscribe_latency := a.subscribe_latency ++ b.subscribe_latency,
    filter_update_latency := a.filter_update_latency ++ b.filter_update_latency,
    e2e_latency := a.e2e_latency ++ b.e2e_latency,
    messages_received := a.messages_received + b.messages_received,
    subscribe_success := a.subscribe_success + b.subscribe_success,
    subscribe_failed := a.subscribe_failed + b.subscribe_failed,
    filter_updates := a.filter_updates + b.filter_updates,
    connection_errors := a.connection_errors + b.connection_errors }

/-- Final shared metrics after all spawned clients ran: the sum of the
per-client contributions. -/
def runAll (cfg : Config) (pool : List String)
    (clients : List (Bool × List ClientEvent)) : Metrics :=
  clients.foldl (fun acc c => acc.add (run_client cfg pool c.1 c.2).m)
    Metrics.init

/-- Run phase tags, for relating recorded samples to the scheduler's
stages (main.rs:606-731: ramp-up, hold, ramp-down; the scheduler has no
warm-up stage). -/
inductive Phase where
  | rampUp : Phase
  | hold : Phase
  | rampDown : Phase
deriving DecidableEq

/-- The end-to-end samples a client records while processing events that
occur during phase `p`.  Each event is annotated with the phase in which
the scheduler's run finds itself when the client processes it; the client
code itself never consults the phase. -/
def e2eDuring (cfg : Config) (pool : List String) (p : Phase) :
    ClientState → Metrics → List (ClientEvent × Phase) → List Nat
  | _, _, [] => []
  | st, m, (ev, ph) :: rest =>
    let r := clientStep cfg pool st m ev
    let fresh := r.m.e2e_latency.drop m.e2e_latency.length
    (if ph = p then fresh else []) ++
      (if r.cont then e2eDuring cfg pool p r.st r.m rest else [])

/-! ### Claim theorems -/

/-- Claim C4 (confirmed): for an extracted send timestamp `ts` and wall
clock `now`, the end-to-end latency is the saturating difference
`now - ts` (zero when `ts > now`, never a wraparound), and the sample is
recorded if and only if it is strictly below 60000 ms; larger samples are
discarded without error (`e2eRecord` returns `none` and the loop goes on). -/
theorem C4_e2e_latency_saturating_and_range (ts now : Nat) :
    (now < ts → e2eRecord ts now = some 0) ∧
    ((e2eRecord ts now).isSome ↔ now - ts < 60000) ∧
    (∀ v, e2eRecord ts now = some v → v = now - ts) := by
  refine ⟨?_, ?_, ?_⟩
  · intro h
    simp [e2eRecord, Nat.sub_eq_zero_of_le (Nat.le_of_lt h)]
  · by_cases h : now - ts < 60000 <;> simp [e2eRecord, h]
  · intro v hv
    by_cases h : now - ts < 60000 <;> simp [e2eRecord, h] at hv
    omega

/-- Witness for C4 at `ts = 200`, `now = 117`: the wall clock is behind the
message timestamp and the computed latency saturates to zero. -/
theorem C4_witness :
    (117 : Nat) < 200 ∧ e2eRecord 200 117 = some 0 :=
  ⟨by decide, (C4_e2e_latency_saturating_and_range 200 117).1 (by decide)⟩

/-- Claim C8 (confirmed): a `pusher:error` frame never terminates the
client.  The step leaves the client state unchanged (in particular the
`subscribed` flag), increments only `subscribe_failed`, reports that the
loop continues, and sends nothing. -/
theorem C8_pusher_error_never_terminates (cfg : Config) (pool : List String)
    (st : ClientState) (m : Metrics) (ch : Option String) (d tg : Option Json)
    (mono wall : Nat) (r : Rng) (sOk : Bool) :
    clientStep cfg pool st m
        (.frame ⟨"pusher:error", ch, d, tg⟩ mono wall r sOk) =
      ⟨st, { m with subscribe_failed := m.subscribe_failed + 1 }, true, []⟩ := by
  rfl

/-- Claim C9 (confirmed): a client increments `active_connections` exactly
once iff its connect succeeded, and decrements it exactly as often as it
incremented it (the decrement in `run_client` follows every loop exit and
only a successful connect reaches the loop), so the net effect is zero and
the counter cannot underflow. -/
theorem C9_active_connections_balanced (cfg : Config) (pool : List String)
    (connectOk : Bool) (events : List ClientEvent) :
    (run_client cfg pool connectOk events).active_inc =
        (if connectOk then 1 else 0) ∧
    (run_client cfg pool connectOk events).active_dec =
        (run_client cfg pool connectOk events).active_inc := by
  cases connectOk <;> simp [run_client]

/-- Claim C2 counterexample: a frame whose event is none of the four
recognized control events and whose channel equals the configured channel
`"ch"` arrives at a freshly connected, not yet subscribed client; the
global `messages_received` stays at its previous value instead of being
incremented, because the code guards the data-delivery branch with the
`subscribed` flag (main.rs:498). -/
theorem C2_counterexample :
    ("app_event" ≠ "pusher:ping" ∧
     "app_event" ≠ "pusher:connection_established" ∧
     "app_event" ≠ "pusher_internal:subscription_succeeded" ∧
     "app_event" ≠ "pusher:error") ∧
    ClientState.init.subscribed = false ∧
    (clientStep ⟨"ch", 1⟩ ["a"] ClientState.init Metrics.init
        (.frame ⟨"app_event", some "ch", some (Json.obj []), none⟩ 10 117
          ⟨0, []⟩ true)).m.messages_received =
      Metrics.init.messages_received := by
  exact ⟨by decide, by decide, by decide⟩

/-- Claim C2 (corrected): for an inbound frame whose event is not a
recognized control event and whose channel equals the configured channel,
`messages_received` is incremented exactly when the client is subscribed;
it is left unchanged otherwise. -/
theorem C2_data_delivery_counts_iff_subscribed (cfg : Config)
    (pool : List String) (st : ClientState) (m : Metrics)
    (msg : PusherMessage) (mono wall : Nat) (r : Rng) (sOk : Bool)
    (h1 : msg.event ≠ "pusher:ping")
    (h2 : msg.event ≠ "pusher:connection_established")
    (h3 : msg.event ≠ "pusher_internal:subscription_succeeded")
    (h4 : msg.event ≠ "pusher:error")
    (h5 : msg.channel = some cfg.channel) :
    (clientStep cfg pool st m
        (.frame msg mono wall r sOk)).m.messages_received =
      m.messages_received + (if st.subscribed then 1 else 0) := by
  dsimp only [clientStep]
  rw [if_neg h1, if_neg h2, if_neg h3, if_neg h4]
  by_cases hs : st.subscribed
  · rw [if_pos ⟨hs, h5⟩, if_pos hs]
    split <;> (try split) <;> rfl
  · rw [if_neg (fun hc => hs hc.1), if_neg hs]
    rfl

/-- Witness for the corrected C2 at a concrete unsubscribed client and a
matching data frame: the increment is zero. -/
theorem C2_witness :
    ("evt" ≠ "pusher:ping") ∧
    (clientStep ⟨"chan", 3⟩ ["b"] ClientState.init Metrics.init
        (.frame ⟨"evt", some "chan", none, none⟩ 0 0 ⟨0, []⟩ true)).m.messages_received =
      Metrics.init.messages_received +
        (if ClientState.init.subscribed then 1 else 0) :=
  ⟨by decide,
    C2_data_delivery_counts_iff_subscribed ⟨"chan", 3⟩ ["b"] ClientState.init
      Metrics.init ⟨"evt", some "chan", none, none⟩ 0 0 ⟨0, []⟩ true
      (by decide) (by decide) (by decide) (by decide) rfl⟩

/-- Claim C3 counterexample: for a message with no root `tags`, whose
`data` carries a `tags` object without a `timestamp` field and a
`data.timestamp` of 42, the code yields no timestamp (main.rs:528-542
consults `data.timestamp` only in the `else` branch of
`if let Some(tags) = data.get("tags")`), while the claimed search order
would fall through to `data.timestamp` and yield 42. -/
theorem C3_counterexample :
    extractTimestamp ⟨"ev", none,
        some (Json.obj [("tags", Json.obj []), ("timestamp", Json.num 42)]),
        none⟩ = none ∧
    extractTimestampClaim ⟨"ev", none,
        some (Json.obj [("tags", Json.obj []), ("timestamp", Json.num 42)]),
        none⟩ = some 42 :=
  ⟨by decide, by decide⟩

/-- Claim C3 (corrected): the extraction consults `tags.timestamp` first
and on failure falls back into `data`, but there `data.timestamp` is
consulted only when `data` has no `tags` field at all; a present
`data.tags` that yields no value ends the search with no timestamp. -/
theorem C3_search_order_amended (msg : PusherMessage) :
    extractTimestamp msg = extractTimestampAmended msg := by
  obtain ⟨e, ch, d, tg⟩ := msg
  dsimp only [extractTimestamp, extractTimestampAmended]
  cases tg with
  | none =>
    cases d with
    | none => rfl
    | some data =>
      cases hdt : data.get "tags" with
      | none =>
        cases hts3 : data.get "timestamp" <;> simp [hdt, hts3]
      | some tgs =>
        cases hts2 : tgs.get "timestamp" <;> simp [hdt, hts2]
  | some tgs =>
    cases hts : tgs.get "timestamp" with
    | none =>
      cases d with
      | none => simp [hts]
      | some data =>
        cases hdt : data.get "tags" with
        | none =>
          cases hts3 : data.get "timestamp" <;> simp [hts, hdt, hts3]
        | some tgs2 =>
          cases hts2 : tgs2.get "timestamp" <;> simp [hts, hdt, hts2]
    | some ts =>
      cases hv : tsFromValue ts with
      | none =>
        cases d with
        | none => simp [hts, hv]
        | some data =>
          cases hdt : data.get "tags" with
          | none =>
            cases hts3 : data.get "timestamp" <;> simp [hts, hv, hdt, hts3]
          | some tgs2 =>
            cases hts2 : tgs2.get "timestamp" <;> simp [hts, hv, hdt, hts2]
      | some v => simp [hts, hv]

/-- An in-bounds `getD` lookup returns a list member. -/
theorem getD_mem_of_lt (l : List String) (i : Nat) (h : i < l.length) :
    l.getD i "" ∈ l := by
  rw [List.getD_eq_getElem l "" h]
  exact List.getElem_mem h

/-- `get_random` returns a pool member whenever the pool is non-empty. -/
theorem get_random_mem (pool : List String) (i : Nat) (h : 0 < pool.length) :
    get_random pool i ∈ pool :=
  getD_mem_of_lt pool _ (Nat.mod_lt _ h)

/-- `get_random_unique` returns `min (pool size) count` entries for any
shuffle outcome. -/
theorem get_random_unique_length (pool : List String) (perm : List Nat)
    (count : Nat) (hperm : perm.Perm (List.range pool.length)) :
    (get_random_unique pool perm count).length = min pool.length count := by
  have hlen : perm.length = pool.length := by
    simpa using hperm.length_eq
  simp only [get_random_unique, List.length_map, List.length_take, hlen]
  exact Nat.min_eq_left (Nat.min_le_left _ _)

/-- Every entry `get_random_unique` returns is drawn from the pool. -/
theorem get_random_unique_mem (pool : List String) (perm : List Nat)
    (count : Nat) (hperm : perm.Perm (List.range pool.length)) :
    ∀ v ∈ get_random_unique pool perm count, v ∈ pool := by
  intro v hv
  simp only [get_random_unique, List.mem_map] at hv
  obtain ⟨i, hi, rfl⟩ := hv
  have hmem : i ∈ perm := List.mem_of_mem_take hi
  have hlt : i < pool.length := by
    simpa using hperm.mem_iff.mp hmem
  exact getD_mem_of_lt pool i hlt

/-- When the pool has no duplicate entries, `get_random_unique` returns
pairwise-distinct entries (the sampled indices are always distinct; the
values are distinct only under this hypothesis). -/
theorem get_random_unique_nodup (pool : List String) (perm : List Nat)
    (count : Nat) (hperm : perm.Perm (List.range pool.length))
    (hpool : pool.Nodup) : (get_random_unique pool perm count).Nodup := by
  have hnd : perm.Nodup :=
    hperm.nodup_iff.mpr (List.nodup_range pool.length)
  have htake : (perm.take (min pool.length count)).Nodup :=
    List.Nodup.sublist (List.take_sublist _ _) hnd
  refine List.Nodup.map_on ?_ htake
  intro x hx y hy hxy
  have hxlt : x < pool.length := by
    simpa using hperm.mem_iff.mp (List.mem_of_mem_take hx)
  have hylt : y < pool.length := by
    simpa using hperm.mem_iff.mp (List.mem_of_mem_take hy)
  rw [List.getD_eq_getElem pool "" hxlt, List.getD_eq_getElem pool "" hylt]
    at hxy
  exact (List.Nodup.getElem_inj_iff hpool).mp hxy

/-- Claim C5 counterexample: a pool of 10 entries containing the duplicate
string `"a"` twice, with the identity shuffle (a possible RNG outcome,
being a permutation of the index range): scenario 3 produces a `Multiple`
filter whose 10 values are not pairwise distinct. -/
theorem C5_counterexample :
    (["a", "a", "b", "c", "d", "e", "f", "g", "h", "i"] : List String).length
        = 10 ∧
    (List.range 10).Perm
      (List.range
        (["a", "a", "b", "c", "d", "e", "f", "g", "h", "i"] : List String).length) ∧
    build_filter 3 ["a", "a", "b", "c", "d", "e", "f", "g", "h", "i"]
        ⟨0, List.range 10⟩ =
      .multiple "token_address" "in"
        ["a", "a", "b", "c", "d", "e", "f", "g", "h", "i"] ∧
    ¬ (["a", "a", "b", "c", "d", "e", "f", "g", "h", "i"] : List String).Nodup :=
  ⟨rfl, List.Perm.refl _, by decide, by decide⟩

/-- Claim C5 (corrected): for a pool with at least 10 entries and any
shuffle outcome, scenario 3 yields a `Multiple` filter with key
`token_address`, cmp `in` and exactly 10 values drawn at pairwise-distinct
pool positions, hence pairwise-distinct values whenever the pool itself has
no duplicate entries (scenarios 4 and 5 yield `min (pool size) 100` resp.
`min (pool size) 500` such values); scenarios 1, 2 and any scenario outside
1..5 yield a `Single` filter with cmp `eq` and one pool value. -/
theorem C5_filter_shapes (pool : List String) (perm : List Nat) (i : Nat)
    (hlen : 10 ≤ pool.length)
    (hperm : perm.Perm (List.range pool.length)) :
    (build_filter 3 pool ⟨i, perm⟩ =
        .multiple "token_address" "in" (get_random_unique pool perm 10) ∧
      (get_random_unique pool perm 10).length = 10 ∧
      (∀ v ∈ get_random_unique pool perm 10, v ∈ pool) ∧
      (pool.Nodup → (get_random_unique pool perm 10).Nodup)) ∧
    (∀ c ∈ ([(4, 100), (5, 500)] : List (Nat × Nat)),
      build_filter c.1 pool ⟨i, perm⟩ =
          .multiple "token_address" "in" (get_random_unique pool perm c.2) ∧
        (get_random_unique pool perm c.2).length = min pool.length c.2 ∧
        (∀ v ∈ get_random_unique pool perm c.2, v ∈ pool) ∧
        (pool.Nodup → (get_random_unique pool perm c.2).Nodup)) ∧
    (∀ s, s = 1 ∨ s = 2 ∨ s = 0 ∨ 6 ≤ s →
      build_filter s pool ⟨i, perm⟩ =
          .single "token_address" "eq" (get_random pool i) ∧
        get_random pool i ∈ pool) := by
  have hpos : 0 < pool.length := Nat.lt_of_lt_of_le (by decide) hlen
  refine ⟨⟨rfl, ?_, get_random_unique_mem pool perm 10 hperm,
      get_random_unique_nodup pool perm 10 hperm⟩, ?_, ?_⟩
  · rw [get_random_unique_length pool perm 10 hperm]
    exact Nat.min_eq_right hlen
  · intro c hc
    simp only [List.mem_cons, List.not_mem_nil, or_false] at hc
    rcases hc with rfl | rfl
    · exact ⟨rfl, get_random_unique_length pool perm 100 hperm,
        get_random_unique_mem pool perm 100 hperm,
        get_random_unique_nodup pool perm 100 hperm⟩
    · exact ⟨rfl, get_random_unique_length pool perm 500 hperm,
        get_random_unique_mem pool perm 500 hperm,
        get_random_unique_nodup pool perm 500 hperm⟩
  · intro s hs
    have hshape : build_filter s pool ⟨i, perm⟩ =
        .single "token_address" "eq" (get_random pool i) := by
      rcases hs with rfl | rfl | rfl | h
      · rfl
      · rfl
      · rfl
      · obtain ⟨t, rfl⟩ : ∃ t, s = t + 6 := ⟨s - 6, by omega⟩
        rfl
    exact ⟨hshape, get_random_mem pool i hpos⟩

/-- Witness for the corrected C5 at a duplicate-free 10-entry pool and the
identity shuffle. -/
theorem C5_witness :
    10 ≤ (["p0", "p1", "p2", "p3", "p4", "p5", "p6", "p7", "p8", "p9"] :
        List String).length ∧
    (get_random_unique ["p0", "p1", "p2", "p3", "p4", "p5", "p6", "p7", "p8", "p9"]
        (List.range 10) 10).length = 10 :=
  ⟨by decide,
    (C5_filter_shapes
        ["p0", "p1", "p2", "p3", "p4", "p5", "p6", "p7", "p8", "p9"]
        (List.range 10) 0 (by decide) (List.Perm.refl _)).1.2.1⟩

/-- Claim C6 counterexample: with the token file absent the pool's entry 0
is `"0x"` followed by forty zero hex digits (`format!("0x{:040x}", 0)` in
`generate_fake`), not the claimed `token_00000000`. -/
theorem C6_counterexample :
    (generate_fake 10000)[0]? = some (format_0x40 0) ∧
    format_0x40 0 ≠ token_name_claim 0 := by
  constructor
  · simp [generate_fake, List.getElem?_range]
  · decide

/-- Claim C6 (corrected): when the configured token file is absent the
process does not fail; it synthesizes a pool of exactly 10000 deterministic
entries, the i-th entry being `"0x"` followed by the 40-hex-digit
zero-padded encoding of i (not `token_<8-hex-index>`). -/
theorem C6_synthetic_pool (parsed : Option (List String)) (i : Nat) :
    tokensOnStartup false parsed = some (generate_fake 10000) ∧
    (generate_fake 10000).length = 10000 ∧
    (generate_fake 10000)[i]? =
      if i < 10000 then some (format_0x40 i) else none := by
  refine ⟨rfl, by simp [generate_fake], ?_⟩
  by_cases h : i < 10000
  · simp [generate_fake, List.getElem?_range, h]
  · rw [if_neg h]
    refine List.getElem?_eq_none ?_
    simp [generate_fake]
    omega

/-- Processing a run of `pusher_internal:subscription_succeeded` frames
from a state with `subscribe_time` set and no filter update in flight:
every single frame records a subscribe-latency sample and bumps the
success counter, because `subscribe_time` is never cleared and only
`is_updating` is consulted. -/
theorem runLoop_replicate_ack (cfg : Config) (pool : List String) (r : Rng) :
    ∀ (k : Nat) (st : ClientState) (m : Metrics),
      st.is_updating = false → st.subscribe_time = some 0 →
      (runLoop cfg pool st m (List.replicate k
          (.frame ⟨"pusher_internal:subscription_succeeded", none, none, none⟩
            0 0 r true))).subscribe_success = m.subscribe_success + k ∧
      (runLoop cfg pool st m (List.replicate k
          (.frame ⟨"pusher_internal:subscription_succeeded", none, none, none⟩
            0 0 r true))).subscribe_latency =
        m.subscribe_latency ++ List.replicate k 0
  | 0, st, m, _, _ => by simp [runLoop, List.replicate]
  | k + 1, st, m, hup, hsub => by
    rw [List.replicate_succ]
    have hstep :
        clientStep cfg pool st m
            (.frame ⟨"pusher_internal:subscription_succeeded", none, none, none⟩
              0 0 r true) =
          ⟨⟨st.subscribe_time, st.update_time, true, st.is_updating⟩,
           ⟨m.subscribe_latency ++ [0], m.filter_update_latency, m.e2e_latency,
            m.messages_received, m.subscribe_success + 1, m.subscribe_failed,
            m.filter_updates, m.connection_errors⟩, true, []⟩ := by
      dsimp only [clientStep]
      rw [hup, hsub]
      simp [recordHist]
    rw [runLoop, hstep]
    dsimp only
    rw [if_pos rfl]
    have ih := runLoop_replicate_ack cfg pool r k
      ⟨st.subscribe_time, st.update_time, true, st.is_updating⟩
      ⟨m.subscribe_latency ++ [0], m.filter_update_latency, m.e2e_latency,
       m.messages_received, m.subscribe_success + 1, m.subscribe_failed,
       m.filter_updates, m.connection_errors⟩ hup hsub
    refine ⟨?_, ?_⟩
    · rw [ih.1]
      dsimp only
      omega
    · rw [ih.2]
      dsimp only
      simp [List.replicate_succ, List.append_assoc]

/-- Claim C10 (confirmed): `subscribe_time` is set on
`pusher:connection_established` and never cleared, so a client that then
receives k `pusher_internal:subscription_succeeded` frames with no filter
update in flight records k subscribe-latency samples and adds k to
`subscribe_success`, not at most 1. -/
theorem C10_repeated_acks_count_repeatedly (cfg : Config)
    (pool : List String) (r : Rng) (k : Nat) :
    (runLoop cfg pool ClientState.init Metrics.init
        (.frame ⟨"pusher:connection_established", none, none, none⟩ 0 0 r true ::
          List.replicate k
            (.frame ⟨"pusher_internal:subscription_succeeded", none, none, none⟩
              0 0 r true))).subscribe_success = k ∧
    (runLoop cfg pool ClientState.init Metrics.init
        (.frame ⟨"pusher:connection_established", none, none, none⟩ 0 0 r true ::
          List.replicate k
            (.frame ⟨"pusher_internal:subscription_succeeded", none, none, none⟩
              0 0 r true))).subscribe_latency.length = k := by
  have hstep :
      clientStep cfg pool ClientState.init Metrics.init
          (.frame ⟨"pusher:connection_established", none, none, none⟩ 0 0 r true) =
        ⟨⟨some 0, none, false, false⟩, Metrics.init,
         true, [.subscribe (build_filter cfg.scenario pool r)]⟩ := rfl
  rw [runLoop, hstep]
  dsimp only
  rw [if_pos rfl]
  have h := runLoop_replicate_ack cfg pool r k
    ⟨some 0, none, false, false⟩ Metrics.init rfl rfl
  refine ⟨?_, ?_⟩
  · rw [h.1]
    simp [Metrics.init]
  · rw [h.2]
    simp [Metrics.init]

/-- A single loop iteration only ever appends to the end-to-end sample
list. -/
theorem clientStep_e2e_append (cfg : Config) (pool : List String)
    (st : ClientState) (m : Metrics) (ev : ClientEvent) :
    ∃ l, (clientStep cfg pool st m ev).m.e2e_latency =
      m.e2e_latency ++ l := by
  cases ev <;> dsimp only [clientStep] <;> repeat' split
  all_goals first
    | exact ⟨_, rfl⟩
    | exact ⟨[], (List.append_nil _).symm⟩

/-- The whole loop only ever appends to the end-to-end sample list. -/
theorem runLoop_e2e_append (cfg : Config) (pool : List String) :
    ∀ (events : List ClientEvent) (st : ClientState) (m : Metrics),
      ∃ l, (runLoop cfg pool st m events).e2e_latency = m.e2e_latency ++ l
  | [], _, m => ⟨[], by simp [runLoop]⟩
  | ev :: rest, st, m => by
    obtain ⟨l1, h1⟩ := clientStep_e2e_append cfg pool st m ev
    rw [runLoop]
    try dsimp only
    split
    · obtain ⟨l2, h2⟩ :=
        runLoop_e2e_append cfg pool rest (clientStep cfg pool st m ev).st
          (clientStep cfg pool st m ev).m
      exact ⟨l1 ++ l2, by rw [h2, h1, List.append_assoc]⟩
    · exact ⟨l1, h1⟩

/-- Annotating every event of a trace with one and the same phase, the
samples collected "during" that phase are exactly all samples the loop
records: the recording path never consults the phase. -/
theorem e2eDuring_const_phase (cfg : Config) (pool : List String) (p : Phase) :
    ∀ (events : List ClientEvent) (st : ClientState) (m : Metrics),
      e2eDuring cfg pool p st m (events.map (fun e => (e, p))) =
        (runLoop cfg pool st m events).e2e_latency.drop m.e2e_latency.length
  | [], _, m => by simp [e2eDuring, runLoop]
  | ev :: rest, st, m => by
    rw [List.map_cons, e2eDuring, runLoop]
    try dsimp only
    rw [if_pos rfl]
    obtain ⟨l1, h1⟩ := clientStep_e2e_append cfg pool st m ev
    by_cases hc : (clientStep cfg pool st m ev).cont = true
    · rw [if_pos hc, if_pos hc,
        e2eDuring_const_phase cfg pool p rest (clientStep cfg pool st m ev).st
          (clientStep cfg pool st m ev).m]
      obtain ⟨l2, h2⟩ :=
        runLoop_e2e_append cfg pool rest (clientStep cfg pool st m ev).st
          (clientStep cfg pool st m ev).m
      rw [h2, h1]
      rw [List.drop_left m.e2e_latency l1,
        List.drop_left (m.e2e_latency ++ l1) l2,
        List.append_assoc m.e2e_latency l1 l2,
        List.drop_left m.e2e_latency (l1 ++ l2)]
    · rw [if_neg hc, if_neg hc, List.append_nil, h1, List.drop_left]

/-- Claim C1 counterexample: a client spawned during ramp-up that receives
`pusher:connection_established`, the subscription ack, and a matching data
frame carrying `data.timestamp = 100` at wall time 117 — all while the run
is still in the ramp-up phase, before the claimed gate could have been set
at hold entry — records the end-to-end sample 17.  Under the claim, no
sample could be recorded while the gate is still false. -/
theorem C1_counterexample :
    e2eDuring ⟨"ch", 1⟩ ["a"] Phase.rampUp ClientState.init Metrics.init
      [(.frame ⟨"pusher:connection_established", none, none, none⟩ 0 0
          ⟨0, []⟩ true, Phase.rampUp),
       (.frame ⟨"pusher_internal:subscription_succeeded", none, none, none⟩ 5 5
          ⟨0, []⟩ true, Phase.rampUp),
       (.frame ⟨"app_event", some "ch", none,
            some (Json.obj [("timestamp", Json.num 100)])⟩ 10 117
          ⟨0, []⟩ true, Phase.rampUp)] = [17] ∧
    ([17] : List Nat) ≠ [] :=
  ⟨by decide, by decide⟩

/-- Claim C1 (corrected): the code has no warm-up gate.  End-to-end sample
recording is independent of the run phase: for every trace, the samples
collected while all events occur during any one phase (ramp-up included)
are exactly all the samples the message loop records, so samples arriving
before hold entry are recorded rather than discarded. -/
theorem C1_no_warmup_gate (cfg : Config) (pool : List String)
    (events : List ClientEvent) (p : Phase) :
    e2eDuring cfg pool p ClientState.init Metrics.init
        (events.map (fun e => (e, p))) =
      (runLoop cfg pool ClientState.init Metrics.init events).e2e_latency := by
  rw [e2eDuring_const_phase]
  simp [Metrics.init]

/-- Claim C7 counterexample: a run with one spawned client whose connect
succeeds and that then only observes the shutdown broadcast.  All three
tallies stay zero, so `subscribe_success + subscribe_failed +
connection_errors` is 0 while N is 1: the sum does not partition the
spawned clients. -/
theorem C7_counterexample :
    ¬ ((runAll ⟨"ch", 1⟩ ["a"] [(true, [ClientEvent.shutdown])]).subscribe_success +
        (runAll ⟨"ch", 1⟩ ["a"] [(true, [ClientEvent.shutdown])]).subscribe_failed +
        (runAll ⟨"ch", 1⟩ ["a"] [(true, [ClientEvent.shutdown])]).connection_errors =
        ([(true, [ClientEvent.shutdown])] :
          List (Bool × List ClientEvent)).length) := by
  decide

/-- Any loop iteration that continues leaves `connection_errors`
untouched, and no iteration adds more than one: only the receive-error
branch increments it, and that branch breaks the loop. -/
theorem clientStep_connection_errors (cfg : Config) (pool : List String)
    (st : ClientState) (m : Metrics) (ev : ClientEvent) :
    ((clientStep cfg pool st m ev).cont = true →
      (clientStep cfg pool st m ev).m.connection_errors =
        m.connection_errors) ∧
    (clientStep cfg pool st m ev).m.connection_errors ≤
      m.connection_errors + 1 := by
  cases ev <;> dsimp only [clientStep] <;> repeat' split
  all_goals simp

/-- Across a whole loop run, `connection_errors` grows by at most one. -/
theorem runLoop_connection_errors (cfg : Config) (pool : List String) :
    ∀ (events : List ClientEvent) (st : ClientState) (m : Metrics),
      (runLoop cfg pool st m events).connection_errors ≤
        m.connection_errors + 1
  | [], _, m => by simp [runLoop]
  | ev :: rest, st, m => by
    rw [runLoop]
    try dsimp only
    split
    · have h := (clientStep_connection_errors cfg pool st m ev).1 (by assumption)
      calc (runLoop cfg pool (clientStep cfg pool st m ev).st
              (clientStep cfg pool st m ev).m rest).connection_errors
          ≤ (clientStep cfg pool st m ev).m.connection_errors + 1 :=
            runLoop_connection_errors cfg pool rest _ _
        _ = m.connection_errors + 1 := by rw [h]
    · exact (clientStep_connection_errors cfg pool st m ev).2

/-- Claim C7 (corrected): the three tallies count events, not clients, and
need not sum to N.  What does hold per spawned client: a failed connect
contributes exactly one connection error and nothing else, and any client
contributes at most one to `connection_errors`; its contributions to
`subscribe_success` and `subscribe_failed` follow the frames it happens to
receive (zero or several each), so no partition identity links the totals
to the client count. -/
theorem C7_tallies_are_event_counts :
    (∀ (cfg : Config) (pool : List String) (events : List ClientEvent),
      run_client cfg pool false events =
        ⟨{ Metrics.init with connection_errors := 1 }, 0, 0⟩) ∧
    (∀ (cfg : Config) (pool : List String) (connectOk : Bool)
        (events : List ClientEvent),
      (run_client cfg pool connectOk events).m.connection_errors ≤ 1) := by
  refine ⟨fun _ _ _ => rfl, fun cfg pool connectOk events => ?_⟩
  cases connectOk
  · simp [run_client]
  · simpa [run_client, Metrics.init] using
      runLoop_connection_errors cfg pool events ClientState.init Metrics.init
